import Mathlib

/-!
Verification of the j-law-grep core against its specification.

The Python sources are shallowly embedded over `List Char`:
`src/backend/search/citation.py`, `src/backend/search/service.py`,
`src/indexer/egov_importer.py`, `src/indexer/utils.py` and
`src/indexer/pipeline.py`.  Strings are lists of characters, Python
`Optional` values are `Option`, Python dicts produced by the query
builder are typed clause/record structures whose fields mirror the
exact keys the code writes.
-/

namespace JLawGrep

/-- Character list of a string literal. -/
def chars (s : String) : List Char := s.data

/-- Decides `lo ≤ c ≤ hi` on code points, as a Bool. -/
def between (lo hi : Nat) (c : Char) : Bool :=
  decide (lo ≤ c.toNat) && decide (c.toNat ≤ hi)

/-- Whitespace: models Python `str.isspace` and the regex class `\s`
(the Unicode whitespace set). -/
def isSpaceCh (c : Char) : Bool :=
  c == ' ' || c == '\t' || c == '\n' || c == '\r' || between 0x0b 0x0c c ||
  between 0x1c 0x1f c || c.toNat == 0x85 || c.toNat == 0xa0 ||
  c.toNat == 0x1680 || between 0x2000 0x200a c || c.toNat == 0x2028 ||
  c.toNat == 0x2029 || c.toNat == 0x202f || c.toNat == 0x205f ||
  c.toNat == 0x3000

/-- Python `str.strip()` with default (whitespace) characters. -/
def strip (s : List Char) : List Char :=
  ((s.dropWhile isSpaceCh).reverse.dropWhile isSpaceCh).reverse

/-- The `FULLWIDTH_DIGITS` translation table of `citation.py`. -/
def fwDigitMap (c : Char) : Char :=
  if c == '０' then '0' else if c == '１' then '1' else if c == '２' then '2'
  else if c == '３' then '3' else if c == '４' then '4' else if c == '５' then '5'
  else if c == '６' then '6' else if c == '７' then '7' else if c == '８' then '8'
  else if c == '９' then '9' else c

/-- Embeds `value.translate(FULLWIDTH_DIGITS)`. -/
def translateFW (s : List Char) : List Char := s.map fwDigitMap

/-- The `KANJI_DIGITS` lookup table. -/
def kanjiDigit (c : Char) : Option Nat :=
  if c == '〇' || c == '零' then some 0
  else if c == '一' then some 1
  else if c == '二' then some 2
  else if c == '三' then some 3
  else if c == '四' then some 4
  else if c == '五' then some 5
  else if c == '六' then some 6
  else if c == '七' then some 7
  else if c == '八' then some 8
  else if c == '九' then some 9
  else none

/-- The `KANJI_UNITS` lookup table. -/
def kanjiUnit (c : Char) : Option Nat :=
  if c == '十' then some 10
  else if c == '百' then some 100
  else if c == '千' then some 1000
  else none

/-- The character loop of `_kanji_to_int` (`citation.py` lines 51-64). -/
def kanjiLoop : List Char → Nat → Nat → Option Nat
  | [], total, current => some (total + current)
  | c :: rest, total, current =>
    match kanjiDigit c with
    | some d => kanjiLoop rest total (current + d)
    | none =>
      match kanjiUnit c with
      | some u => kanjiLoop rest (total + (if current == 0 then 1 else current) * u) 0
      | none => none

/-- Embeds `_kanji_to_int` (`citation.py` lines 48-64): `None` on the empty
string, otherwise the accumulate/multiply loop. -/
def kanjiToInt (s : List Char) : Option Nat :=
  if s.isEmpty then none else kanjiLoop s 0 0

/-- ASCII digit test; models Python `str.isdigit` character membership on
the character set this corpus uses (full-width digits are translated to
ASCII before any `isdigit` call in the sources). -/
def isAsciiDigit (c : Char) : Bool := between 48 57 c

/-- Python `s.isdigit()`: non-empty and all digits. -/
def isDigits (s : List Char) : Bool := !s.isEmpty && s.all isAsciiDigit

/-- Numeric value of an ASCII digit character. -/
def digitVal (c : Char) : Nat := c.toNat - 48

/-- Python `int(s)` for an all-digit string. -/
def natOfDigits (s : List Char) : Nat := s.foldl (fun a c => a * 10 + digitVal c) 0

/-- ASCII digit character for `n < 10`. -/
def digitChar (n : Nat) : Char := Char.ofNat (48 + n)

/-- Fuel-driven decimal printer loop. -/
def natDigitsGo : Nat → Nat → List Char → List Char
  | 0, _, acc => acc
  | fuel + 1, n, acc =>
    if n < 10 then digitChar n :: acc
    else natDigitsGo fuel (n / 10) (digitChar (n % 10) :: acc)

/-- Python `str(n)` for a natural number. -/
def natDigits (n : Nat) : List Char := natDigitsGo (n + 1) n []

/-- A Python value that is either an `int` or a `str` (the importer's
`parse_number` returns `Optional[int | str]`, and those values flow
unchecked into `Citation` fields and f-strings downstream). -/
inductive NumVal where
  | i (n : Nat)
  | s (v : List Char)
deriving DecidableEq

/-- Python `str(v)` / f-string rendering of a `NumVal`. -/
def strNumVal : NumVal → List Char
  | .i n => natDigits n
  | .s v => v

/-- The `Citation` dataclass of `citation.py`.  The number fields hold
`NumVal` because the indexing pipeline constructs `Citation` with the
importer's `int | str` numbers, while the parser always supplies ints. -/
structure Citation where
  law_name : Option (List Char)
  article_no : Option (List Char)
  paragraph_no : Option NumVal
  item_no : Option NumVal
deriving DecidableEq

/-- Embeds `_normalize_number` (`citation.py` lines 67-74). -/
def normalizeNumber : Option (List Char) → Option Nat
  | none => none
  | some v =>
    let normalized := translateFW v
    if isDigits normalized then some (natOfDigits normalized)
    else kanjiToInt normalized

/-- Python truthiness of an `Optional[str]`: falsy iff `None` or empty. -/
def optStrFalsy : Option (List Char) → Bool
  | none => true
  | some s => s.isEmpty

/-- Python `" ".join(parts)`. -/
def joinSpace : List (List Char) → List Char
  | [] => []
  | [p] => p
  | p :: q :: rest => p ++ ' ' :: joinSpace (q :: rest)

/-- Embeds `citation_key` (`citation.py` lines 117-125). -/
def citationKey (c : Citation) : Option (List Char) :=
  if optStrFalsy c.law_name || optStrFalsy c.article_no then none
  else
    let law := strip (c.law_name.getD [])
    let parts := [law, c.article_no.getD [] ++ chars "条"]
      ++ (match c.paragraph_no with
          | some p => [strNumVal p ++ chars "項"]
          | none => [])
      ++ (match c.item_no with
          | some i => [strNumVal i ++ chars "号"]
          | none => [])
    some (joinSpace parts)

/-- Alphabet of `_kanji_to_int`: kanji digit or unit characters. -/
def isKanjiNumeral (c : Char) : Bool := (kanjiDigit c).isSome || (kanjiUnit c).isSome

/-- One step of the accumulate/multiply scheme as the spec words it:
digits add into `current`; a unit multiplies (`current` of zero counts
as 1), moves the product into the total and resets `current`. -/
def specKanjiStep (acc : Nat × Nat) (c : Char) : Nat × Nat :=
  match kanjiDigit c with
  | some d => (acc.1, acc.2 + d)
  | none =>
    match kanjiUnit c with
    | some u => (acc.1 + (if acc.2 == 0 then 1 else acc.2) * u, 0)
    | none => acc

/-- Value of the spec's accumulate/multiply scheme: fold the steps and
add the trailing `current` to the total at the end. -/
def specKanjiValue (s : List Char) : Nat :=
  let acc := s.foldl specKanjiStep (0, 0)
  acc.1 + acc.2

/-- Models Python regex `\w` (word character) on the scripts this corpus
uses: ASCII alphanumerics and underscore, hiragana, katakana (U+3040 to
U+30FF), CJK ideographs (U+4E00 to U+9FFF) and full-width
alphanumerics. -/
def isWordCh (c : Char) : Bool :=
  between 48 57 c || between 65 90 c || between 97 122 c || c == '_' ||
  between 0x3040 0x30ff c || between 0x4e00 0x9fff c ||
  between 0xff10 0xff19 c || between 0xff21 0xff3a c || between 0xff41 0xff5a c

/-- The law-name character class of the citation pattern
(`citation.py` line 80). -/
def isLawCh (c : Char) : Bool :=
  isWordCh c || c == '-' || c == '・' || c == '（' || c == '）' ||
  c == '(' || c == ')' || c.toNat == 0x3000 || isSpaceCh c ||
  between 0x4e00 0x9fff c || c == '々' || c == '〆'

/-- The numeral character class `[0-9一二三四五六七八九十百千〇零]`
of the article, paragraph and item groups. -/
def isNumCh (c : Char) : Bool :=
  isAsciiDigit c || (kanjiDigit c).isSome || (kanjiUnit c).isSome

/-- The capture groups of one match of the citation pattern. -/
structure RawMatch where
  law : Option (List Char)
  article : List Char
  paragraph : Option (List Char)
  item : Option (List Char)
deriving DecidableEq

/-- Matches `\s*[numeral]+X` for a marker `X` (`項` or `号`); used for
the two optional trailing groups.  The greedy sub-parts need no
backtracking: the whitespace and numeral classes are disjoint and the
marker belongs to neither, so a match exists here iff the maximal
whitespace run is followed by a non-empty maximal numeral run followed
by the marker. -/
def matchNumGroup (marker : Char) (s : List Char) :
    Option (List Char × List Char) :=
  let s1 := s.dropWhile isSpaceCh
  let num := s1.takeWhile isNumCh
  let s2 := s1.dropWhile isNumCh
  if num.isEmpty then none
  else
    match s2 with
    | c :: rest => if c == marker then some (num, rest) else none
    | [] => none

/-- Matches `(?:第)?[numeral]+条`.  Consuming a leading `第` is forced
when one is present (`第` is not a numeral, so the skip branch dies
immediately), and the greedy numeral run needs no backtracking because
`条` is not a numeral. -/
def matchArticleGroup (s : List Char) : Option (List Char × List Char) :=
  let s1 := match s with
    | c :: rest => if c == '第' then rest else c :: rest
    | [] => []
  let num := s1.takeWhile isNumCh
  let s2 := s1.dropWhile isNumCh
  if num.isEmpty then none
  else
    match s2 with
    | c :: rest => if c == '条' then some (num, rest) else none
    | [] => none

/-- Matches everything after the optional law-name group: the article
group then the two independent optional groups. -/
def matchAfterLaw (s : List Char) :
    Option (List Char × Option (List Char) × Option (List Char)) :=
  match matchArticleGroup s with
  | none => none
  | some (art, r1) =>
    match matchNumGroup '項' r1 with
    | some (para, r2) =>
      match matchNumGroup '号' r2 with
      | some (item, _) => some (art, some para, some item)
      | none => some (art, some para, none)
    | none =>
      match matchNumGroup '号' r1 with
      | some (item, _) => some (art, none, some item)
      | none => some (art, none, none)

/-- Backtracking of the greedy `\s*` that closes the law-name group:
try consuming `m` whitespace characters, then `m - 1`, …, then `0`. -/
def trySpacesDown :
    Nat → List Char → Option (List Char × Option (List Char) × Option (List Char))
  | 0, r => matchAfterLaw r
  | m + 1, r =>
    match matchAfterLaw (r.drop (m + 1)) with
    | some t => some t
    | none => trySpacesDown m r

/-- First `some` result of `f` along a list. -/
def firstSome (f : α → Option β) : List α → Option β
  | [] => none
  | a :: rest =>
    match f a with
    | some b => some b
    | none => firstSome f rest

/-- The law-name group with a capture of exactly `n` characters at this
position, followed by `\s*` (longest first) and the rest of the
pattern. -/
def tryLawLen (s : List Char) (n : Nat) : Option RawMatch :=
  let law := s.take n
  let r := s.drop n
  let k := (r.takeWhile isSpaceCh).length
  match trySpacesDown k r with
  | some (art, para, item) => some ⟨some law, art, para, item⟩
  | none => none

/-- One attempt of the whole pattern at the current position.  The
optional law group is greedy, so capture lengths are tried first (the
lazy `+?` orders them shortest first, bounded by the maximal law-class
run), and only then the law-less alternative. -/
def matchAt (s : List Char) : Option RawMatch :=
  let lmax := (s.takeWhile isLawCh).length
  match firstSome (fun n => tryLawLen s n) ((List.range lmax).map (· + 1)) with
  | some m => some m
  | none =>
    match matchAfterLaw s with
    | some (art, para, item) => some ⟨none, art, para, item⟩
    | none => none

/-- Embeds `pattern.search(normalized)`: first match, leftmost position wins. -/
def searchPattern : List Char → Option RawMatch
  | [] => matchAt []
  | c :: rest =>
    match matchAt (c :: rest) with
    | some m => some m
    | none => searchPattern rest

/-- Embeds `parse_citation` (`citation.py` lines 77-114). -/
def parseCitation (text : List Char) : Citation :=
  let normalized := translateFW text
  match searchPattern normalized with
  | none => ⟨none, none, none, none⟩
  | some m =>
    let law_name := match m.law with
      | none => none
      | some l => some (if l.isEmpty then l else strip l)
    let paragraph_no := (normalizeNumber m.paragraph).map NumVal.i
    let item_no := (normalizeNumber m.item).map NumVal.i
    let article_raw := m.article
    let article_no :=
      if article_raw.isEmpty then article_raw
      else
        let translated := translateFW article_raw
        if isDigits translated then translated
        else
          match kanjiToInt article_raw with
          | some k => natDigits k
          | none => article_raw
    ⟨law_name, some article_no, paragraph_no, item_no⟩

/-- Python truthiness of an `Optional[str]`, positively. -/
def optStrTruthy (o : Option (List Char)) : Bool := !optStrFalsy o

/-- A scalar value inside a `term` clause: a string or a number. -/
inductive TermVal where
  | sv (v : List Char)
  | nv (v : NumVal)
deriving DecidableEq

/-- One leaf clause of the boolean query, mirroring exactly the dict
shapes `build_query` writes: `regexp` (value, flags), `match_phrase`
(query, optional analyzer key, optional slop key), `term`, and
`match_phrase_prefix` (constructor `phrasePfx`). -/
inductive Clause where
  | regexp (field : List Char) (value : List Char) (flags : List Char)
  | matchPhrase (field : List Char) (query : List Char)
      (analyzer : Option (List Char)) (slop : Option Nat)
  | term (field : List Char) (value : TermVal)
  | phrasePfx (field : List Char) (query : List Char)
deriving DecidableEq

/-- The `bool` query dict: `minimum_should_match = none` models the key
being absent. -/
structure BoolQuery where
  must : List Clause
  filter : List Clause
  should : List Clause
  minimum_should_match : Option Nat
deriving DecidableEq

/-- The fixed highlight configuration
(`open_search_client.py` lines 154-166). -/
structure HighlightConfig where
  field : List Char
  highlighter : List Char
  number_of_fragments : Nat
  fragment_size : Nat
  no_match_size : Nat
  pre_tags : List (List Char)
  post_tags : List (List Char)
deriving DecidableEq

/-- Embeds `highlight_config()`. -/
def highlightConfig : HighlightConfig :=
  ⟨chars "content", chars "unified", 3, 120, 120,
   [chars "<mark>"], [chars "</mark>"]⟩

/-- Embeds `SearchParams` (`service.py` lines 11-17).  The `filters` dict is
modelled by its two accessed entries; `none` covers a missing key, a
`None` value and an absent dict alike (all make
`params.filters.get(...)` falsy the same way). -/
structure SearchParams where
  q : List Char
  mode : List Char
  law_filter : Option (List Char)
  year_filter : Option (List Char)
  size : Nat
  page : Int
deriving DecidableEq

/-- Embeds `SearchService.build_query` (`service.py` lines 27-94).  `compiles`
models which pattern strings `re.compile` accepts without raising
`re.error`. -/
def buildQuery (compiles : List Char → Bool) (params : SearchParams) :
    BoolQuery × HighlightConfig :=
  let citation := parseCitation params.q
  let ckey := citationKey citation
  let must : List Clause :=
    if params.mode = chars "regex" then
      if compiles params.q then
        [.regexp (chars "content") params.q (chars "ALL")]
      else
        [.matchPhrase (chars "content") params.q (some (chars "whitespace")) none]
    else
      [.matchPhrase (chars "content") params.q (some (chars "whitespace")) (some 0)]
  let filterClauses : List Clause :=
    (if optStrTruthy params.law_filter then
      [.term (chars "law_name") (.sv (params.law_filter.getD []))] else [])
    ++ (if optStrTruthy params.year_filter then
      [.term (chars "year_enforced") (.sv (params.year_filter.getD []))] else [])
    ++ (if optStrTruthy citation.law_name then
      [.term (chars "law_name") (.sv (citation.law_name.getD []))] else [])
    ++ (if optStrTruthy citation.article_no then
      [.term (chars "article_no") (.sv (citation.article_no.getD []))] else [])
    ++ (citation.paragraph_no.map
          (fun p => Clause.term (chars "paragraph_no") (.nv p))).toList
    ++ (citation.item_no.map
          (fun i => Clause.term (chars "item_no") (.nv i))).toList
  let should : List Clause :=
    (if optStrTruthy params.law_filter then
      [.phrasePfx (chars "law_name.prefix") (params.law_filter.getD [])] else [])
    ++ (if optStrTruthy citation.law_name then
      [.phrasePfx (chars "law_name.prefix") (citation.law_name.getD [])] else [])
    ++ (ckey.map (fun k => Clause.phrasePfx (chars "citation_key.prefix") k)).toList
  ({ must := must, filter := filterClauses, should := should,
     minimum_should_match := if should.isEmpty then none else some 1 },
   highlightConfig)

/-- Python `pat in s` (substring containment). -/
def containsSub (pat : List Char) : List Char → Bool
  | [] => pat.isEmpty
  | c :: rest => List.isPrefixOf pat (c :: rest) || containsSub pat rest

/-- Loop of the non-overlapping occurrence count for a non-empty
pattern `p :: ps`.  The fuel only bounds the recursion; every call
consumes at least one character, so `s.length + 1` is always enough. -/
def countOccurGo (p : Char) (ps : List Char) : Nat → List Char → Nat
  | 0, _ => 0
  | _ + 1, [] => 0
  | fuel + 1, c :: rest =>
    if List.isPrefixOf (p :: ps) (c :: rest) then
      countOccurGo p ps fuel (rest.drop ps.length) + 1
    else countOccurGo p ps fuel rest

/-- Python `s.count(pat)`: non-overlapping occurrences, left to right. -/
def countOccur (pat s : List Char) : Nat :=
  match pat with
  | [] => s.length + 1
  | p :: ps => countOccurGo p ps (s.length + 1) s

/-- Python `s.replace(pat, "", 1)` for a non-empty `pat`. -/
def removeFirst (pat : List Char) : List Char → List Char
  | [] => []
  | c :: rest =>
    if List.isPrefixOf pat (c :: rest) then (c :: rest).drop pat.length
    else c :: removeFirst pat rest

/-- The part of `s` strictly before the last occurrence of `sep`, or
`none` when `sep` does not occur in `s`. -/
def beforeLastOcc (sep : List Char) : List Char → Option (List Char)
  | [] => none
  | c :: rest =>
    match beforeLastOcc sep rest with
    | some t => some (c :: t)
    | none => if List.isPrefixOf sep (c :: rest) then some [] else none

/-- The opening highlight marker. -/
def markOpen : List Char := chars "<mark>"

/-- The closing highlight marker. -/
def markClose : List Char := chars "</mark>"

/-- Loop of the literal-occurrence wrapping
(`re.sub(re.escape(query), ...)` for the non-empty literal `q :: qs`):
wraps every leftmost non-overlapping occurrence in the marker pair.
Fuel as in `countOccurGo`. -/
def wrapOccGo (q : Char) (qs : List Char) : Nat → List Char → List Char
  | 0, s => s
  | _ + 1, [] => []
  | fuel + 1, c :: rest =>
    if List.isPrefixOf (q :: qs) (c :: rest) then
      markOpen ++ (q :: qs) ++ markClose ++ wrapOccGo q qs fuel (rest.drop qs.length)
    else c :: wrapOccGo q qs fuel rest

/-- Embeds `re.sub(re.escape(query), lambda m: "<mark>" + m.group(0) + "</mark>", s)`:
the escaped pattern matches `query` literally. -/
def wrapOcc (query s : List Char) : List Char :=
  match query with
  | [] => s
  | q :: qs => wrapOccGo q qs (s.length + 1) s

/-- The unwrap step of `_ensure_highlight`:
`snippet.replace("<mark>", "", 1).rsplit("</mark>", 1)[0]` (Python
`rsplit` returns the whole string in part 0 when the separator is
absent). -/
def unwrapMark (snippet : List Char) : List Char :=
  (beforeLastOcc markClose (removeFirst markOpen snippet)).getD
    (removeFirst markOpen snippet)

/-- Embeds `SearchService._ensure_highlight` (`service.py` lines 172-185).
`compileOk` models whether `re.compile` accepts the escaped query
pattern (in CPython `re.escape` output always compiles; the parameter
makes the dead `except re.error` arm expressible).  The inner `match`
on `query` cannot hit `[]`: the emptiness guard has already returned. -/
def ensureHighlight (compileOk : Bool) (snippet query : List Char) : List Char :=
  if query.isEmpty then snippet
  else
    let unwrapped : Option (List Char) :=
      if containsSub markOpen snippet then
        if countOccur markOpen snippet == 1 &&
            List.isPrefixOf markOpen snippet &&
            List.isSuffixOf markClose snippet then
          some (unwrapMark snippet)
        else none
      else some snippet
    match unwrapped with
    | none => snippet
    | some s => if compileOk then wrapOcc query s else s

/-- An XML element as `xml.etree.ElementTree` presents it: tag,
attributes, leading text, trailing tail text, children in document
order. -/
inductive Elem where
  | node (tag : List Char) (attribs : List (List Char × List Char))
      (text : Option (List Char)) (tailTx : Option (List Char))
      (children : List Elem)

/-- The element's tag. -/
def Elem.tag : Elem → List Char
  | .node t _ _ _ _ => t

/-- The element's attribute dict. -/
def Elem.attribs : Elem → List (List Char × List Char)
  | .node _ a _ _ _ => a

/-- The element's own leading text (`.text`). -/
def Elem.text : Elem → Option (List Char)
  | .node _ _ x _ _ => x

/-- The element's trailing text (`.tail`). -/
def Elem.tailTx : Elem → Option (List Char)
  | .node _ _ _ tl _ => tl

/-- The element's direct children. -/
def Elem.children : Elem → List Elem
  | .node _ _ _ _ cs => cs

/-- The tag part after the first closing brace, if any. -/
def afterBrace : List Char → Option (List Char)
  | [] => none
  | c :: rest => if c.toNat == 0x7d then some rest else afterBrace rest

/-- Embeds `local_name` (`egov_importer.py` lines 18-21). -/
def localName (tag : List Char) : List Char := (afterBrace tag).getD tag

mutual

/-- Embeds `Element.itertext()` joined (`_joined_text`): own text, then each
child's itertext followed by that child's tail, in document order. -/
def iterText : Elem → List Char
  | .node _ _ x _ cs => x.getD [] ++ iterTextList cs

/-- Embeds `itertext` over a child list, including the children's tails. -/
def iterTextList : List Elem → List Char
  | [] => []
  | c :: rest => iterText c ++ c.tailTx.getD [] ++ iterTextList rest

end

mutual

/-- Embeds `Element.iter()`: the element itself followed by all its
descendants, in document order. -/
def allNodes : Elem → List Elem
  | .node t a x tl cs => .node t a x tl cs :: allNodesList cs

/-- Embeds `iter()` concatenated over a list of elements. -/
def allNodesList : List Elem → List Elem
  | [] => []
  | c :: rest => allNodes c ++ allNodesList rest

end

/-- The per-node test of `find_first_text`: a matching local name whose
joined text is non-empty and not all whitespace. -/
def nodeNamedText (names : List (List Char)) (c : Elem) : Option (List Char) :=
  if names.contains (localName c.tag) then
    let t := iterText c
    if !t.isEmpty && !(strip t).isEmpty then some t else none
  else none

/-- Embeds `find_first_text` (`egov_importer.py` lines 41-55): direct children
first, then the whole subtree (self included, as `element.iter()`
yields). -/
def findFirstText (e : Elem) (names : List (List Char)) : Option (List Char) :=
  match firstSome (nodeNamedText names) e.children with
  | some t => some t
  | none => firstSome (nodeNamedText names) (allNodes e)

/-- Collapse every maximal whitespace run to one ASCII space
(`re.sub(r"\s+", " ", value)`); `inRun` tracks being inside a run. -/
def collapseGo (inRun : Bool) : List Char → List Char
  | [] => []
  | c :: rest =>
    if isSpaceCh c then
      if inRun then collapseGo true rest else ' ' :: collapseGo true rest
    else c :: collapseGo false rest

/-- Embeds `normalize_text` (`indexer/utils.py`): ideographic space to ASCII
space, collapse whitespace runs, strip. -/
def normalizeText (value : List Char) : List Char :=
  strip (collapseGo false
    (value.map (fun c => if c.toNat == 0x3000 then ' ' else c)))

/-- The per-node sentence text of `extract_sentence_texts`: the direct
`.text` of a SentenceText/Sentence node, when truthy. -/
def sentencePart (n : Elem) : List Char :=
  if localName n.tag == chars "SentenceText" ||
      localName n.tag == chars "Sentence" then
    match n.text with
    | some t => if t.isEmpty then [] else t
    | none => []
  else []

/-- Embeds `extract_sentence_texts` (`egov_importer.py` lines 58-65). -/
def extractSentenceTexts (es : List Elem) : List Char :=
  normalizeText (List.flatten (es.map (fun e => List.flatten ((allNodes e).map sentencePart))))

/-- Embeds `parse_number` (`egov_importer.py` lines 24-33): an int exactly when
the normalized, full-width-translated value is all digits, else the
normalized string. -/
def parseNumber : Option (List Char) → Option NumVal
  | none => none
  | some v =>
    let value := normalizeText v
    if value.isEmpty then none
    else
      let translated := translateFW value
      if isDigits translated then some (.i (natOfDigits translated))
      else some (.s value)

/-- One parsed item (`parse_item` output dict). -/
structure ItemRec where
  item_no : Option NumVal
  text : List Char
deriving DecidableEq

/-- One parsed paragraph (`parse_paragraph` output dict). -/
structure ParagraphRec where
  paragraph_no : Option NumVal
  items : List ItemRec
deriving DecidableEq

/-- One parsed article (`parse_article` output dict, or a pseudo
article from the structural fallback). -/
structure ArticleRec where
  article_no : List Char
  heading : List Char
  paragraphs : List ParagraphRec
deriving DecidableEq

/-- The law record `parse_law` returns. -/
structure LawRec where
  law_id : List Char
  law_name : List Char
  law_aliases : List (List Char)
  articles : List ArticleRec
  year_enforced : Option (List Char)
deriving DecidableEq

/-- Embeds `elem.attrib.get(key)`. -/
def attribGet (e : Elem) (key : List Char) : Option (List Char) :=
  (e.attribs.find? (fun p => p.1 == key)).map (fun p => p.2)

/-- Python `a or b` on `Optional[str]` operands: `b` when `a` is `None`
or empty. -/
def orStr (a b : Option (List Char)) : Option (List Char) :=
  match a with
  | some v => if v.isEmpty then b else some v
  | none => b

/-- A Python `or`-chain over `Optional[str]` operands ending in a plain
string default: the first truthy value, else the default. -/
def firstTruthy : List (Option (List Char)) → List Char → List Char
  | [], dflt => dflt
  | x :: rest, dflt =>
    match x with
    | some v => if v.isEmpty then firstTruthy rest dflt else v
    | none => firstTruthy rest dflt

/-- Direct children with a given local name (`findall('./{*}Name')`). -/
def childrenNamed (e : Elem) (n : List Char) : List Elem :=
  e.children.filter (fun c => localName c.tag == n)

/-- Proper descendants with a given local name
(`findall('.//{*}Name')`). -/
def descendantsNamed (e : Elem) (n : List Char) : List Elem :=
  (allNodesList e.children).filter (fun c => localName c.tag == n)

/-- Embeds `parse_item` (`egov_importer.py` lines 68-76). -/
def parseItem (e : Elem) : Option ItemRec :=
  let item_no := orStr (attribGet e (chars "Num"))
    (findFirstText e [chars "ItemTitle", chars "ItemNum"])
  let text := extractSentenceTexts [e]
  if text.isEmpty then none
  else some ⟨parseNumber item_no, text⟩

/-- Embeds `parse_paragraph` (`egov_importer.py` lines 79-101). -/
def parseParagraph (e : Elem) : Option ParagraphRec :=
  let paragraph_no := orStr (attribGet e (chars "Num"))
    (findFirstText e [chars "ParagraphNum"])
  let paragraph_text :=
    extractSentenceTexts (childrenNamed e (chars "ParagraphSentence"))
  let items0 := (childrenNamed e (chars "Item")).filterMap parseItem
  let items :=
    if !items0.isEmpty then
      if !paragraph_text.isEmpty then ⟨none, paragraph_text⟩ :: items0 else items0
    else if !paragraph_text.isEmpty then [⟨none, paragraph_text⟩]
    else []
  if items.isEmpty then none
  else some ⟨parseNumber paragraph_no, items⟩

/-- Embeds `parse_article` (`egov_importer.py` lines 104-124). -/
def parseArticle (e : Elem) : Option ArticleRec :=
  let article_no := findFirstText e [chars "ArticleNum"]
  let heading := normalizeText ((findFirstText e [chars "ArticleTitle"]).getD [])
  let paragraphs0 := (childrenNamed e (chars "Paragraph")).filterMap parseParagraph
  if paragraphs0.isEmpty then
    let article_text := extractSentenceTexts [e]
    if article_text.isEmpty then none
    else some ⟨normalizeText (article_no.getD []), heading,
      [⟨none, [⟨none, article_text⟩]⟩]⟩
  else some ⟨normalizeText (article_no.getD []), heading, paragraphs0⟩

/-- The `.//{*}LawBody//{*}Paragraph` selector of the fallback. -/
def lawBodyParagraphs (root : Elem) : List Elem :=
  (descendantsNamed root (chars "LawBody")).flatMap
    (fun lb => descendantsNamed lb (chars "Paragraph"))

/-- The pseudo article the fallback synthesizes from one enumerated
paragraph element (`egov_importer.py` lines 150-164); `idx1` is the
1-based enumeration index over *all* law-body paragraph elements. -/
def pseudoArticle (idx1 : Nat) (pe : Elem) : Option ArticleRec :=
  match parseParagraph pe with
  | none => none
  | some p =>
    let own := normalizeText ((orStr (attribGet pe (chars "Num"))
      (findFirstText pe [chars "ParagraphNum"])).getD [])
    let article_no := if own.isEmpty then natDigits idx1 else own
    some ⟨article_no, [], [p]⟩

/-- Embeds `parse_law` (`egov_importer.py` lines 127-171), over the parsed root
element and the source filename stem. -/
def parseLaw (root : Elem) (stem : List Char) : LawRec :=
  let law_id := firstTruthy
    [findFirstText root [chars "LawId", chars "LawID", chars "LawNum"],
     attribGet root (chars "LawID"), attribGet root (chars "Id")] stem
  let law_name := firstTruthy
    [findFirstText root [chars "LawTitle", chars "LawName"]] law_id
  let enforce_date := findFirstText root
    [chars "EnactDate", chars "AmendmentDate", chars "PromulgationDate"]
  let year_enforced := match enforce_date with
    | some d => if 4 ≤ d.length then some (d.take 4) else none
    | none => none
  let articles0 := (descendantsNamed root (chars "Article")).filterMap parseArticle
  let articles :=
    if articles0.isEmpty then
      (lawBodyParagraphs root).enum.filterMap
        (fun p => pseudoArticle (p.1 + 1) p.2)
    else articles0
  ⟨normalizeText law_id, normalizeText law_name, [], articles, year_enforced⟩

/-- The structural fallback as the amended claim words it: one pseudo
article per parseable Paragraph element under the law body, heading
empty, holding exactly the parsed paragraph, numbered by the
paragraph's own (normalized) number when non-empty, else by its 1-based
position among *all* Paragraph elements under the law body. -/
def specPseudoArticles (root : Elem) : List ArticleRec :=
  (lawBodyParagraphs root).enum.filterMap (fun p =>
    match parseParagraph p.2 with
    | none => none
    | some par =>
      let own := normalizeText ((orStr (attribGet p.2 (chars "Num"))
        (findFirstText p.2 [chars "ParagraphNum"])).getD [])
      some ⟨(if own.isEmpty then natDigits (p.1 + 1) else own), [], [par]⟩)

/-- A source document with no Article elements: a law body holding an
unparseable first paragraph (no text) and a parseable second paragraph
(one sentence, no number of its own). -/
def exNoArticle : Elem :=
  .node (chars "Law") [] none none
    [.node (chars "LawBody") [] none none
      [.node (chars "Paragraph") [] none none [],
       .node (chars "Paragraph") [] none none
         [.node (chars "ParagraphSentence") [] none none
           [.node (chars "Sentence") [] (some (chars "本文")) none []]]]]

/-- A `{kind, html}` block. -/
structure Block where
  kind : List Char
  html : List Char
deriving DecidableEq

/-- An item dict of the corpus JSON `collect_records` reads. -/
structure JItem where
  item_no : Option NumVal
  text : List Char
deriving DecidableEq

/-- A paragraph dict; `text` models the `"text"` key (default empty)
used when `items` is missing or empty. -/
structure JParagraph where
  paragraph_no : Option NumVal
  items : List JItem
  text : List Char
deriving DecidableEq

/-- An article dict; `text` models the `"text"` key backing the legacy
no-paragraphs shape.  `article_no` is a string: the importer always
emits strings here, and `collect_records` re-applies `str(...)`, the
identity on strings. -/
structure JArticle where
  article_no : List Char
  heading : List Char
  paragraphs : List JParagraph
  text : List Char
deriving DecidableEq

/-- One corpus document. -/
structure JDoc where
  law_id : List Char
  law_name : List Char
  law_aliases : List (List Char)
  year_enforced : Option (List Char)
  articles : List JArticle
deriving DecidableEq

/-- Embeds `IndexRecord` (`pipeline.py` lines 12-27). -/
structure IndexRecord where
  law_id : List Char
  law_name : List Char
  law_aliases : List (List Char)
  article_no : List Char
  paragraph_no : Option NumVal
  item_no : Option NumVal
  heading : List Char
  content : List Char
  content_plain : List Char
  citation : Citation
  year_enforced : Option (List Char)
  path : List Char
  url : List Char
  blocks : List Block
deriving DecidableEq

/-- Python truthiness of an `Optional[int | str]` number. -/
def numTruthy : Option NumVal → Bool
  | none => false
  | some (.i n) => n != 0
  | some (.s v) => !v.isEmpty

/-- Embeds `url += f"/{v}"` guarded by `if v:` (`pipeline.py` lines 97-100). -/
def appendSeg (u : List Char) (v : Option NumVal) : List Char :=
  match v with
  | some x => if numTruthy (some x) then u ++ '/' :: strNumVal x else u
  | none => u

/-- The url `collect_records` builds (`pipeline.py` lines 96-100). -/
def recordUrl (law_id article_no : List Char) (p i : Option NumVal) : List Char :=
  appendSeg (appendSeg (chars "/l/" ++ law_id ++ chars "/a/" ++ article_no) p) i

/-- Embeds `x or 0` rendered into the document id f-string. -/
def orZeroStr : Option NumVal → List Char
  | none => natDigits 0
  | some x => if numTruthy (some x) then strNumVal x else natDigits 0

/-- The document id `to_index_actions` builds (`pipeline.py` line 143). -/
def docId (law_id article_no : List Char) (p i : Option NumVal) : List Char :=
  law_id ++ chars "-" ++ article_no ++ chars "-" ++ orZeroStr p
    ++ chars "-" ++ orZeroStr i

/-- The record built for one leaf item (`pipeline.py` lines 78-118);
`none` when the normalized text is empty (the leaf is skipped). -/
def recordsOfItem (doc : JDoc) (article : JArticle)
    (paragraph_no : Option NumVal) (item : JItem) : Option IndexRecord :=
  let text := normalizeText item.text
  if text.isEmpty then none
  else
    some
      { law_id := doc.law_id, law_name := doc.law_name,
        law_aliases := doc.law_aliases, article_no := article.article_no,
        paragraph_no := paragraph_no, item_no := item.item_no,
        heading := normalizeText article.heading,
        content := text, content_plain := text,
        citation := ⟨some doc.law_name, some article.article_no,
          paragraph_no, item.item_no⟩,
        year_enforced := doc.year_enforced,
        path := doc.law_name ++ '/' :: article.article_no,
        url := recordUrl doc.law_id article.article_no paragraph_no item.item_no,
        blocks := [⟨chars "text", text⟩] }

/-- Embeds `collect_records` (`pipeline.py` lines 45-119), over an in-memory
corpus: the input list stands for the documents in their sorted on-disk
order (the directory read itself is filesystem territory). -/
def collectRecords (docs : List JDoc) : List IndexRecord :=
  docs.flatMap (fun doc =>
    doc.articles.flatMap (fun article =>
      let paragraphs :=
        if article.paragraphs.isEmpty then
          [⟨none, [⟨none, article.text⟩], []⟩]
        else article.paragraphs
      paragraphs.flatMap (fun paragraph =>
        let items :=
          if paragraph.items.isEmpty then [⟨none, paragraph.text⟩]
          else paragraph.items
        items.filterMap (fun item =>
          recordsOfItem doc article paragraph.paragraph_no item))))

/-- The `_source` dict of one bulk action (`pipeline.py` lines 126-142). -/
structure SourceDoc where
  law_id : List Char
  law_name : List Char
  law_aliases : List (List Char)
  article_no : List Char
  paragraph_no : Option NumVal
  item_no : Option NumVal
  citation_key : Option (List Char)
  heading : List Char
  content : List Char
  content_plain : List Char
  year_enforced : Option (List Char)
  path : List Char
  url : List Char
  line : Nat
  blocks : List Block
deriving DecidableEq

/-- One bulk action `{_id, _source}`. -/
structure IndexAction where
  id : List Char
  source : SourceDoc
deriving DecidableEq

/-- Embeds `to_index_actions` (`pipeline.py` lines 122-145). -/
def toIndexActions (records : List IndexRecord) : List IndexAction :=
  records.map (fun r =>
    { id := docId r.law_id r.article_no r.paragraph_no r.item_no,
      source :=
        { law_id := r.law_id, law_name := r.law_name,
          law_aliases := r.law_aliases, article_no := r.article_no,
          paragraph_no := r.paragraph_no, item_no := r.item_no,
          citation_key := citationKey r.citation,
          heading := r.heading, content := r.content,
          content_plain := r.content_plain,
          year_enforced := r.year_enforced, path := r.path,
          url := r.url, line := 0, blocks := r.blocks } })

/-- The url format as the claim words it: base, then a paragraph
segment only when the paragraph number is truthy, then an item segment
only when the item number is truthy. -/
def specUrl (law_id article_no : List Char) (p i : Option NumVal) : List Char :=
  chars "/l/" ++ law_id ++ chars "/a/" ++ article_no
    ++ (if numTruthy p then '/' :: strNumVal (p.getD (.i 0)) else [])
    ++ (if numTruthy i then '/' :: strNumVal (i.getD (.i 0)) else [])

/-- The document id format as the claim words it. -/
def specDocId (law_id article_no : List Char) (p i : Option NumVal) : List Char :=
  law_id ++ chars "-" ++ article_no ++ chars "-"
    ++ (if numTruthy p then strNumVal (p.getD (.i 0)) else chars "0")
    ++ chars "-"
    ++ (if numTruthy i then strNumVal (i.getD (.i 0)) else chars "0")

/-- A one-document corpus: law `minpo`, one article `23`, one paragraph
numbered 4, one numberless item. -/
def exDoc : JDoc :=
  ⟨chars "minpo", chars "民法", [], some (chars "1896"),
   [⟨chars "23", [], [⟨some (.i 4), [⟨none, chars "本文"⟩], []⟩], []⟩]⟩

/-- The single bulk action flattening `exDoc` produces. -/
def exAction : IndexAction :=
  ⟨chars "minpo-23-4-0",
   ⟨chars "minpo", chars "民法", [], chars "23", some (.i 4), none,
    some (chars "民法 23条 4項"), [], chars "本文", chars "本文",
    some (chars "1896"), chars "民法/23", chars "/l/minpo/a/23/4", 0,
    [⟨chars "text", chars "本文"⟩]⟩⟩

theorem kanjiLoop_eq_spec (s : List Char) :
    ∀ total current, (∀ c ∈ s, isKanjiNumeral c = true) →
      kanjiLoop s total current =
        some ((s.foldl specKanjiStep (total, current)).1 +
              (s.foldl specKanjiStep (total, current)).2) := by
  induction s with
  | nil => intro total current _; rfl
  | cons c rest ih =>
    intro total current h
    have hc : isKanjiNumeral c = true := h c (List.mem_cons_self c rest)
    have hrest : ∀ x ∈ rest, isKanjiNumeral x = true :=
      fun x hx => h x (List.mem_cons_of_mem c hx)
    unfold isKanjiNumeral at hc
    rcases Bool.or_eq_true_iff.mp hc with hd | hu
    · obtain ⟨d, hd'⟩ := Option.isSome_iff_exists.mp hd
      simp only [kanjiLoop, List.foldl_cons, specKanjiStep, hd']
      exact ih total (current + d) hrest
    · obtain ⟨u, hu'⟩ := Option.isSome_iff_exists.mp hu
      cases hdc : kanjiDigit c with
      | some d =>
        simp only [kanjiLoop, List.foldl_cons, specKanjiStep, hdc]
        exact ih total (current + d) hrest
      | none =>
        simp only [kanjiLoop, List.foldl_cons, specKanjiStep, hdc, hu']
        exact ih (total + (if current == 0 then 1 else current) * u) 0 hrest

theorem kanjiLoop_none (s : List Char) :
    ∀ total current, (∃ c ∈ s, isKanjiNumeral c = false) →
      kanjiLoop s total current = none := by
  induction s with
  | nil => intro _ _ h; obtain ⟨c, hc, _⟩ := h; cases hc
  | cons c rest ih =>
    intro total current h
    obtain ⟨x, hx, hbad⟩ := h
    rcases List.mem_cons.mp hx with hcx | hmem
    · subst hcx
      unfold isKanjiNumeral at hbad
      have hd : kanjiDigit x = none := by
        cases hdc : kanjiDigit x with
        | some d => simp [hdc] at hbad
        | none => rfl
      have hu : kanjiUnit x = none := by
        cases huc : kanjiUnit x with
        | some u => simp [huc] at hbad
        | none => rfl
      simp [kanjiLoop, hd, hu]
    · cases hdc : kanjiDigit c with
      | some d => simp only [kanjiLoop, hdc]; exact ih _ _ ⟨x, hmem, hbad⟩
      | none =>
        cases huc : kanjiUnit c with
        | some u => simp only [kanjiLoop, hdc, huc]; exact ih _ _ ⟨x, hmem, hbad⟩
        | none => simp [kanjiLoop, hdc, huc]

/-- Claim C2 (corrected: the code returns `None` on the empty string,
which is also a string over the kanji alphabet, so non-emptiness must be
assumed): on every non-empty string over the kanji digit and unit
characters, `_kanji_to_int` computes the spec's accumulate/multiply
scheme; any string containing another character yields `None`; and
`"十"` → 10, `"二十三"` → 23, `"百二"` → 102, `"〇"` → 0. -/
theorem C2_kanji_to_int_amended (s : List Char) :
    (s ≠ [] → (∀ c ∈ s, isKanjiNumeral c = true) →
      kanjiToInt s = some (specKanjiValue s)) ∧
    ((∃ c ∈ s, isKanjiNumeral c = false) → kanjiToInt s = none) ∧
    kanjiToInt (chars "十") = some 10 ∧
    kanjiToInt (chars "二十三") = some 23 ∧
    kanjiToInt (chars "百二") = some 102 ∧
    kanjiToInt (chars "〇") = some 0 := by
  refine ⟨?_, ?_, by decide, by decide, by decide, by decide⟩
  · intro hne h
    have : s.isEmpty = false := by
      cases s with
      | nil => exact absurd rfl hne
      | cons a l => rfl
    rw [kanjiToInt, this, if_neg (by simp)]
    exact kanjiLoop_eq_spec s 0 0 h
  · intro h
    cases s with
    | nil => obtain ⟨c, hc, _⟩ := h; cases hc
    | cons a l =>
      have hres := kanjiLoop_none (a :: l) 0 0 h
      simp [kanjiToInt, hres]

/-- Claim C2, counterexample to the claim as stated: the empty string is
a string over the kanji alphabet, the spec scheme assigns it the value 0,
but `_kanji_to_int` returns `None`. -/
theorem C2_counterexample :
    kanjiToInt [] = none ∧ specKanjiValue [] = 0 ∧
    kanjiToInt [] ≠ some (specKanjiValue []) := by decide

/-- Claim C2, witness instantiating the amended theorem's hypotheses. -/
theorem C2_witness :
    kanjiToInt (chars "二十三") = some (specKanjiValue (chars "二十三")) ∧
    kanjiToInt (chars "二a") = none :=
  ⟨(C2_kanji_to_int_amended (chars "二十三")).1 (by decide) (by decide),
   (C2_kanji_to_int_amended (chars "二a")).2.1 ⟨'a', by decide, by decide⟩⟩

/-- Claim C7 (corrected: the code also returns `None` when a law name or
article number is *present but empty* — Python truthiness — so "absent"
must be weakened to "absent or empty"): `citation_key` is `None` iff the
law name or article number is absent or empty; otherwise it space-joins
`law`, `{article}条`, optionally `{paragraph}項` and `{item}号`; and the
given concrete key comes out as `"民法 95条 1項 1号"`. -/
theorem C7_citation_key_amended (c : Citation) :
    (citationKey c = none ↔
      (optStrFalsy c.law_name = true ∨ optStrFalsy c.article_no = true)) ∧
    (∀ l a, c.law_name = some l → l ≠ [] → c.article_no = some a → a ≠ [] →
      citationKey c = some (strip l ++ ' ' :: (a ++ chars "条")
        ++ (match c.paragraph_no with
            | some p => ' ' :: (strNumVal p ++ chars "項")
            | none => [])
        ++ (match c.item_no with
            | some i => ' ' :: (strNumVal i ++ chars "号")
            | none => []))) ∧
    citationKey ⟨some (chars "民法"), some (chars "95"),
      some (.i 1), some (.i 1)⟩ = some (chars "民法 95条 1項 1号") := by
  refine ⟨?_, ?_, by decide⟩
  · by_cases h : (optStrFalsy c.law_name || optStrFalsy c.article_no) = true
    · simp [citationKey, h, Bool.or_eq_true_iff.mp h]
    · rw [citationKey, if_neg h]
      simp only [Bool.or_eq_true_iff] at h
      push_neg at h
      simp [h.1, h.2]
  · intro l a hl hlne ha hane
    have hfl : optStrFalsy c.law_name = false := by
      rw [hl]; simpa [optStrFalsy] using hlne
    have hfa : optStrFalsy c.article_no = false := by
      rw [ha]; simpa [optStrFalsy] using hane
    rw [citationKey, if_neg (by simp [hfl, hfa])]
    rw [hl, ha]
    cases hp : c.paragraph_no with
    | none =>
      cases hi : c.item_no with
      | none => simp [joinSpace]
      | some i => simp [joinSpace]
    | some p =>
      cases hi : c.item_no with
      | none => simp [joinSpace]
      | some i => simp [joinSpace]

/-- Claim C7, counterexample to the claim as stated: a citation whose law
name is present (not absent) but empty, with a present article number,
still yields `None`. -/
theorem C7_counterexample :
    citationKey ⟨some [], some (chars "95"), none, none⟩ = none ∧
    (⟨some [], some (chars "95"), none, none⟩ : Citation).law_name ≠ none ∧
    (⟨some [], some (chars "95"), none, none⟩ : Citation).article_no ≠ none := by
  decide

/-- Claim C7, witness instantiating the amended theorem's hypotheses. -/
theorem C7_witness :
    citationKey ⟨some (chars "民法"), some (chars "709"), none, none⟩
      = some (chars "民法 709条") := by
  have h := (C7_citation_key_amended
    ⟨some (chars "民法"), some (chars "709"), none, none⟩).2.1
    (chars "民法") (chars "709") rfl (by decide) rfl (by decide)
  exact h.trans (by decide)

/-- Claim C1 (confirmed): `parse_citation` is a total function (the
embedding returns a `Citation` on every input, mirroring that the Python
never raises); whenever the pattern finds no match in the
full-width-digit-normalized text, all four fields are absent; and the
two spec examples parse to (`民法`, `95`, 1, 2) and (`民法`, `709`,
absent, absent). -/
theorem C1_parse_citation (text : List Char) :
    (searchPattern (translateFW text) = none →
      parseCitation text = ⟨none, none, none, none⟩) ∧
    parseCitation (chars "民法第95条1項2号")
      = ⟨some (chars "民法"), some (chars "95"), some (.i 1), some (.i 2)⟩ ∧
    parseCitation (chars "民法 709条")
      = ⟨some (chars "民法"), some (chars "709"), none, none⟩ := by
  refine ⟨?_, by decide, by decide⟩
  intro h
  simp [parseCitation, h]

/-- Claim C1, witness: a text containing no citation parses to the
all-absent citation. -/
theorem C1_witness :
    parseCitation (chars "hello") = ⟨none, none, none, none⟩ :=
  (C1_parse_citation (chars "hello")).1 (by decide)

theorem msm_iff_should_ne_nil (S : List Clause) :
    (if S.isEmpty then (none : Option Nat) else some 1) = some 1 ↔ S ≠ [] := by
  cases S <;> simp

/-- Claim C3 (corrected: "a law name is present" must be "a non-empty
law name is present" — Python truthiness — since an explicit but empty
`filters.law` entry or an empty parsed law name contributes no should
clause): the query carries `minimum_should_match` (set to 1) iff the
should list is non-empty, and the should list is non-empty iff a
non-empty law name is present (in the parsed citation or in
`filters.law`) or a citation key derives from the query text. -/
theorem C3_minimum_should_match_amended
    (compiles : List Char → Bool) (params : SearchParams) :
    ((buildQuery compiles params).1.minimum_should_match = some 1 ↔
      (buildQuery compiles params).1.should ≠ []) ∧
    ((buildQuery compiles params).1.should ≠ [] ↔
      (optStrTruthy params.law_filter = true ∨
       optStrTruthy (parseCitation params.q).law_name = true ∨
       (citationKey (parseCitation params.q)).isSome = true)) := by
  constructor
  · simp only [buildQuery]
    exact msm_iff_should_ne_nil _
  · by_cases h1 : optStrTruthy params.law_filter = true
    · simp [buildQuery, h1]
    · by_cases h2 : optStrTruthy (parseCitation params.q).law_name = true
      · simp [buildQuery, h1, h2]
      · cases h3 : citationKey (parseCitation params.q) with
        | none => simp [buildQuery, h1, h2, h3]
        | some k => simp [buildQuery, h1, h2, h3]

/-- Claim C3, counterexample to the claim as stated: with query `"x"`
(which parses to no citation) and an explicit but empty `filters.law`
entry, a law name is *present* in the filters, yet the should list is
empty and no `minimum_should_match` key is attached. -/
theorem C3_counterexample :
    (buildQuery (fun _ => true)
      ⟨chars "x", chars "literal", some [], none, 20, 1⟩).1.should = [] ∧
    (buildQuery (fun _ => true)
      ⟨chars "x", chars "literal", some [], none, 20, 1⟩).1.minimum_should_match
      = none ∧
    (⟨chars "x", chars "literal", some [], none, 20, 1⟩
      : SearchParams).law_filter ≠ none := by decide

/-- Claim C5 (corrected: the fallback clause is not equal to the
literal-mode clause — literal mode writes an explicit `slop: 0` while
the regex fallback omits the slop key, leaving the engine default): in
regex mode with a non-compiling search text, `build_query` returns
normally, with the whitespace-analyzer phrase-match clause without a
slop key as its must clause, while literal mode produces the same
clause with an explicit zero slop. -/
theorem C5_regex_fallback_amended
    (compiles : List Char → Bool) (params : SearchParams)
    (hmode : params.mode = chars "regex") (hfail : compiles params.q = false) :
    (buildQuery compiles params).1.must =
      [.matchPhrase (chars "content") params.q (some (chars "whitespace")) none] ∧
    ∀ lit : SearchParams, lit.mode = chars "literal" →
      (buildQuery compiles lit).1.must =
        [.matchPhrase (chars "content") lit.q
          (some (chars "whitespace")) (some 0)] := by
  constructor
  · simp [buildQuery, hmode, hfail]
  · intro lit hlit
    have hne : ¬ (chars "literal" = chars "regex") := by decide
    simp [buildQuery, hlit, hne]

/-- Claim C5, counterexample to the claim as stated: for the
non-compiling pattern `"("`, the regex-mode must clause differs from the
literal-mode must clause for the same text (`slop` key absent vs
`slop: 0`). -/
theorem C5_counterexample :
    (buildQuery (fun _ => false)
      ⟨chars "(", chars "regex", none, none, 20, 1⟩).1.must ≠
    (buildQuery (fun _ => false)
      ⟨chars "(", chars "literal", none, none, 20, 1⟩).1.must := by decide

/-- Claim C5, witness instantiating the amended theorem's hypotheses. -/
theorem C5_witness :
    (buildQuery (fun _ => false)
      ⟨chars "(", chars "regex", none, none, 20, 1⟩).1.must =
      [.matchPhrase (chars "content") (chars "(")
        (some (chars "whitespace")) none] :=
  (C5_regex_fallback_amended (fun _ => false)
    ⟨chars "(", chars "regex", none, none, 20, 1⟩ rfl rfl).1

theorem countOccurGo_eq_zero (p : Char) (ps : List Char) (fuel : Nat) :
    ∀ s, containsSub (p :: ps) s = false → countOccurGo p ps fuel s = 0 := by
  induction fuel with
  | zero => intro s _; rfl
  | succ n ih =>
    intro s h
    cases s with
    | nil => rfl
    | cons c rest =>
      rw [containsSub, Bool.or_eq_false_iff] at h
      simp [countOccurGo, h.1, ih rest h.2]

/-- Claim C6 (corrected: only in the counterfactual failure clause —
when the substitution pattern fails to compile the code returns the
snippet *as of the substitution step*, i.e. the unwrapped text when a
whole-span wrap was stripped, not always the unmodified snippet):
for a non-empty query, a marker-free snippet gets every literal
occurrence of the query wrapped; an exactly-once whole-span wrap gets
stripped and re-wrapped (in particular `"<mark>全文</mark>"` with query
`"全文"` re-renders as `"<mark>全文</mark>"`); two or more marker pairs
leave the snippet unchanged; and a compilation failure returns the
snippet as of the substitution step. -/
theorem C6_ensure_highlight_amended (snippet query : List Char)
    (hq : query ≠ []) :
    (containsSub markOpen snippet = false →
      ensureHighlight true snippet query = wrapOcc query snippet ∧
      ensureHighlight false snippet query = snippet) ∧
    (containsSub markOpen snippet = true →
      (countOccur markOpen snippet == 1 && List.isPrefixOf markOpen snippet &&
        List.isSuffixOf markClose snippet) = true →
      ensureHighlight true snippet query = wrapOcc query (unwrapMark snippet) ∧
      ensureHighlight false snippet query = unwrapMark snippet) ∧
    (2 ≤ countOccur markOpen snippet →
      ∀ ok, ensureHighlight ok snippet query = snippet) ∧
    ensureHighlight true (chars "<mark>全文</mark>") (chars "全文")
      = chars "<mark>全文</mark>" := by
  have hqe : query.isEmpty = false := by
    cases query with
    | nil => exact absurd rfl hq
    | cons a l => rfl
  refine ⟨?_, ?_, ?_, by decide⟩
  · intro hnc
    constructor <;> simp [ensureHighlight, hqe, hnc]
  · intro hc hcond
    constructor <;> simp [ensureHighlight, hqe, hc, hcond]
  · intro h2 ok
    have hc : containsSub markOpen snippet = true := by
      by_contra hcf
      have hcf' : containsSub markOpen snippet = false :=
        Bool.eq_false_iff.mpr hcf
      have : countOccur markOpen snippet = 0 := by
        simpa [countOccur, markOpen, chars] using
          countOccurGo_eq_zero '<' (chars "mark>") (snippet.length + 1) snippet
            (by simpa [markOpen, chars] using hcf')
      omega
    have hne : (countOccur markOpen snippet == 1) = false := by
      have : countOccur markOpen snippet ≠ 1 := by omega
      simpa using this
    simp [ensureHighlight, hqe, hc, hne]

/-- Claim C6, counterexample to the claim as stated: on a whole-span
wrapped snippet, a pattern-compilation failure returns the *unwrapped*
text, not the unmodified snippet. -/
theorem C6_counterexample :
    ensureHighlight false (chars "<mark>ab</mark>") (chars "zz") = chars "ab" ∧
    chars "ab" ≠ chars "<mark>ab</mark>" := by decide

/-- Claim C6, witness instantiating the amended theorem's hypotheses. -/
theorem C6_witness :
    ensureHighlight true (chars "abc") (chars "b")
      = wrapOcc (chars "b") (chars "abc") :=
  ((C6_ensure_highlight_amended (chars "abc") (chars "b")
    (by decide)).1 (by decide)).1

/-- Claim C4 (corrected: the fallback's positional article number is
the paragraph's 1-based position among *all* Paragraph elements under
the law body — unparseable paragraphs advance the counter too — not its
position among the qualifying (parseable) paragraphs): with zero
Article elements anywhere, `parse_law` emits exactly the pseudo
articles of `specPseudoArticles`, one per parseable law-body paragraph,
each with empty heading and exactly one (the parsed) paragraph. -/
theorem C4_pseudo_articles_amended (root : Elem) (stem : List Char)
    (hnoart : descendantsNamed root (chars "Article") = []) :
    (parseLaw root stem).articles = specPseudoArticles root ∧
    ∀ a ∈ (parseLaw root stem).articles,
      a.heading = [] ∧ a.paragraphs.length = 1 := by
  have harts : (parseLaw root stem).articles =
      (lawBodyParagraphs root).enum.filterMap
        (fun p => pseudoArticle (p.1 + 1) p.2) := by
    simp [parseLaw, hnoart]
  constructor
  · rw [harts]; rfl
  · intro a ha
    rw [harts] at ha
    obtain ⟨p, hp, he⟩ := List.mem_filterMap.mp ha
    cases hpp : parseParagraph p.2 with
    | none => simp [pseudoArticle, hpp] at he
    | some par =>
      simp only [pseudoArticle, hpp, Option.some_inj] at he
      subst he
      exact ⟨rfl, rfl⟩

/-- Claim C4, counterexample to the claim as stated: in a document with
no Article elements, whose law body holds an unparseable first
paragraph and a parseable, numberless second one, the pseudo article is
numbered "2" (the position among all paragraph elements), not "1" (the
position among the qualifying ones). -/
theorem C4_counterexample :
    descendantsNamed exNoArticle (chars "Article") = [] ∧
    (parseLaw exNoArticle (chars "stem")).articles.map
      (fun a => a.article_no) = [chars "2"] ∧
    chars "2" ≠ chars "1" :=
  ⟨rfl, rfl, by decide⟩

/-- Claim C4, witness instantiating the amended theorem's hypothesis. -/
theorem C4_witness :
    (parseLaw exNoArticle (chars "stem")).articles
      = specPseudoArticles exNoArticle :=
  (C4_pseudo_articles_amended exNoArticle (chars "stem") rfl).1

theorem appendSeg_eq (u : List Char) (v : Option NumVal) :
    appendSeg u v =
      u ++ (if numTruthy v then '/' :: strNumVal (v.getD (.i 0)) else []) := by
  cases v with
  | none => simp [appendSeg, numTruthy]
  | some x =>
    by_cases h : numTruthy (some x) = true
    · simp [appendSeg, h]
    · rw [Bool.not_eq_true] at h
      simp [appendSeg, h]

theorem recordUrl_eq_specUrl (law_id article_no : List Char)
    (p i : Option NumVal) :
    recordUrl law_id article_no p i = specUrl law_id article_no p i := by
  rw [recordUrl, appendSeg_eq, appendSeg_eq, specUrl]

theorem orZeroStr_eq (v : Option NumVal) :
    orZeroStr v =
      if numTruthy v then strNumVal (v.getD (.i 0)) else chars "0" := by
  cases v with
  | none => decide
  | some x =>
    by_cases h : numTruthy (some x) = true
    · simp [orZeroStr, h]
    · rw [Bool.not_eq_true] at h
      simp only [orZeroStr, h, Bool.false_eq_true, if_false]
      decide

theorem docId_eq_specDocId (law_id article_no : List Char)
    (p i : Option NumVal) :
    docId law_id article_no p i = specDocId law_id article_no p i := by
  rw [docId, orZeroStr_eq, orZeroStr_eq, specDocId]

theorem mem_collectRecords_url (docs : List JDoc) (r : IndexRecord)
    (hr : r ∈ collectRecords docs) :
    r.url = recordUrl r.law_id r.article_no r.paragraph_no r.item_no := by
  simp only [collectRecords] at hr
  obtain ⟨doc, hdoc, hr⟩ := List.mem_flatMap.mp hr
  obtain ⟨article, harticle, hr⟩ := List.mem_flatMap.mp hr
  obtain ⟨paragraph, hparagraph, hr⟩ := List.mem_flatMap.mp hr
  obtain ⟨item, hitem, hr⟩ := List.mem_filterMap.mp hr
  simp only [recordsOfItem] at hr
  split at hr
  · simp at hr
  · rw [Option.some_inj] at hr
    subst hr
    rfl

/-- Claim C8 (confirmed): every flattened action's url follows the
`/l/{law_id}/a/{article_no}` scheme with the paragraph segment appended
only when the paragraph number is truthy and the item segment only when
the item number is truthy, its id is
`{law_id}-{article_no}-{paragraph_no_or_0}-{item_no_or_0}`, and
article "23" with paragraph 4 and no item yields exactly
`/l/minpo/a/23/4` (no further segment). -/
theorem C8_url_and_id (docs : List JDoc) :
    (∀ a ∈ toIndexActions (collectRecords docs),
      a.source.url = specUrl a.source.law_id a.source.article_no
          a.source.paragraph_no a.source.item_no ∧
      a.id = specDocId a.source.law_id a.source.article_no
          a.source.paragraph_no a.source.item_no) ∧
    recordUrl (chars "minpo") (chars "23") (some (.i 4)) none
      = chars "/l/minpo/a/23/4" := by
  constructor
  · intro a ha
    simp only [toIndexActions] at ha
    obtain ⟨r, hr, rfl⟩ := List.mem_map.mp ha
    constructor
    · show r.url = specUrl r.law_id r.article_no r.paragraph_no r.item_no
      rw [mem_collectRecords_url docs r hr, recordUrl_eq_specUrl]
    · show docId r.law_id r.article_no r.paragraph_no r.item_no
        = specDocId r.law_id r.article_no r.paragraph_no r.item_no
      exact docId_eq_specDocId r.law_id r.article_no r.paragraph_no r.item_no
  · decide

/-- Claim C8, witness instantiating the membership hypothesis on the
one-document corpus `exDoc`. -/
theorem C8_witness :
    exAction.source.url = specUrl exAction.source.law_id
        exAction.source.article_no exAction.source.paragraph_no
        exAction.source.item_no ∧
    exAction.id = specDocId exAction.source.law_id
        exAction.source.article_no exAction.source.paragraph_no
        exAction.source.item_no :=
  (C8_url_and_id [exDoc]).1 exAction (by decide)

/-- Claim C9 (confirmed): flattening is deterministic — the embedding is
a pure function of the corpus, mirroring that the Python reads nothing
beyond its input — equal corpora give equal action lists, every emitted
action's id is the document-id function of the record's identifying
fields, and that function depends on those fields alone. -/
theorem C9_deterministic (docs docs2 : List JDoc) (heq : docs = docs2) :
    toIndexActions (collectRecords docs)
      = toIndexActions (collectRecords docs2) ∧
    (∀ a ∈ toIndexActions (collectRecords docs),
      a.id = docId a.source.law_id a.source.article_no
        a.source.paragraph_no a.source.item_no) ∧
    ∀ r r2 : IndexRecord,
      r.law_id = r2.law_id → r.article_no = r2.article_no →
      r.paragraph_no = r2.paragraph_no → r.item_no = r2.item_no →
      docId r.law_id r.article_no r.paragraph_no r.item_no
        = docId r2.law_id r2.article_no r2.paragraph_no r2.item_no := by
  subst heq
  refine ⟨rfl, ?_, ?_⟩
  · intro a ha
    simp only [toIndexActions] at ha
    obtain ⟨r, hr, rfl⟩ := List.mem_map.mp ha
    rfl
  · intro r r2 h1 h2 h3 h4
    rw [h1, h2, h3, h4]

/-- Claim C9, witness instantiating the hypotheses on the one-document
corpus `exDoc`. -/
theorem C9_witness :
    toIndexActions (collectRecords [exDoc])
      = toIndexActions (collectRecords [exDoc]) ∧
    exAction.id = docId exAction.source.law_id exAction.source.article_no
      exAction.source.paragraph_no exAction.source.item_no :=
  ⟨(C9_deterministic [exDoc] [exDoc] rfl).1,
   (C9_deterministic [exDoc] [exDoc] rfl).2.1 exAction (by decide)⟩

/-- Claim C10 (confirmed): the importer's `parse_number` returns an
integer exactly when the whitespace-normalized, full-width-translated
input is all ASCII digits; every other non-blank input comes back as
the normalized string unchanged — kanji numerals are never decoded to
integers (`"二"` stays the string `"二"`) — and such string numbers are
rendered verbatim into record urls and document ids. -/
theorem C10_parse_number (v : List Char) :
    ((∃ n, parseNumber (some v) = some (.i n)) ↔
      isDigits (translateFW (normalizeText v)) = true) ∧
    (normalizeText v ≠ [] →
      isDigits (translateFW (normalizeText v)) = false →
      parseNumber (some v) = some (.s (normalizeText v))) ∧
    parseNumber (some (chars "二")) = some (.s (chars "二")) ∧
    (∀ law art s : List Char, s ≠ [] →
      recordUrl law art (some (.s s)) none
        = chars "/l/" ++ law ++ chars "/a/" ++ art ++ '/' :: s ∧
      docId law art (some (.s s)) none
        = law ++ chars "-" ++ art ++ chars "-" ++ s
            ++ chars "-" ++ chars "0") := by
  refine ⟨?_, ?_, by decide, ?_⟩
  · by_cases he : (normalizeText v).isEmpty
    · have hv : normalizeText v = [] := by simpa using he
      simp [parseNumber, he, hv, isDigits, translateFW]
    · rw [Bool.not_eq_true] at he
      by_cases hd : isDigits (translateFW (normalizeText v)) = true
      · simp [parseNumber, he, hd]
      · rw [Bool.not_eq_true] at hd
        simp [parseNumber, he, hd]
  · intro hne hd
    have he : (normalizeText v).isEmpty = false := by
      cases h : normalizeText v with
      | nil => exact absurd h hne
      | cons a l => rfl
    simp [parseNumber, he, hd]
  · intro law art s hs
    have hse : s.isEmpty = false := by
      cases h : s with
      | nil => exact absurd h hs
      | cons a l => rfl
    have ht : numTruthy (some (.s s)) = true := by simp [numTruthy, hse]
    have h0 : natDigits 0 = chars "0" := by decide
    constructor
    · rw [recordUrl, appendSeg_eq, appendSeg_eq]
      simp [numTruthy, hse, strNumVal, List.append_assoc]
    · rw [docId]
      simp [orZeroStr, numTruthy, hse, strNumVal, h0]

/-- Claim C10, witness instantiating the hypotheses: a kanji-numbered
paragraph survives as the string `"二"` and renders verbatim in a url. -/
theorem C10_witness :
    parseNumber (some (chars " 二 ")) = some (.s (chars "二")) ∧
    recordUrl (chars "L") (chars "5") (some (.s (chars "二"))) none
      = chars "/l/L/a/5/二" := by
  constructor
  · exact ((C10_parse_number (chars " 二 ")).2.1 (by decide)
      (by decide)).trans (by decide)
  · exact (((C10_parse_number (chars "x")).2.2.2 (chars "L") (chars "5")
      (chars "二") (by decide)).1).trans (by decide)

end JLawGrep
